import Mathlib

/-!
Verification development for the Mainline module SDK snapshot build scripts
(`build/mainline_modules_sdks.py`).

The Python program is shallowly embedded as follows:

* Text files that the transformations rewrite are modelled as lists of lines
  (`Line := List Char`).  The Python code reads a file line by line, strips
  the trailing newline of every line (`line.rstrip("\n")`), and finally
  writes `"\n".join(lines) + "\n"`.  Joining a list of strings with `"\n"`
  flattens any embedded newline characters, so a multi-line string appended
  as a single element produces the same bytes as its individual physical
  lines appended one by one; the chunk definitions below therefore list the
  physical lines of the multi-line Python f-strings.
* `BuildRelease` instances register themselves in the global
  `ALL_BUILD_RELEASES` list from `__post_init__`, taking the current length
  of the list as their `ordinal`; this is modelled by a fold
  (`registerBuildRelease`) over the construction sequence.  Fields that no
  claim depends on (`creator`, `sub_dir`, `soong_env`,
  `include_flagged_apis`, `generate_gantry_metadata_and_api_diff`) are
  omitted from the record.
* `functools.total_ordering` derives `__gt__` from `__le__` as
  `not (a <= b)`; `BuildRelease.gt` mirrors that derivation.
* The class hierarchy `FileTransformation` /
  `SoongConfigBoilerplateInserter` / `UseSourceConfigVarTransformation` is
  modelled as the sum type `Transformation`; subclasses other than the two
  concrete prefer-rewriting ones (such as the ad-hoc test transformation in
  the repository's test suite) are represented by the
  `otherFileTransformation` constructor.
* `BundledMainlineModule` overrides `is_bundled` and `transformations` of
  `MainlineModule`; the embedding merges the hierarchy into one record with
  an `is_bundled` flag and performs the dispatch inside
  `MainlineModule.transformations`.
* The field written `configModuleTypePfx` below corresponds to the Python
  attribute `configModuleTypePrefix`, and `«namespace»` to the `namespace`
  attribute of `ConfigVar`.
* Python truthiness of the `additional_transformations` attribute (None and
  the empty list are falsy) is modelled by `truthyList`.
-/

namespace MainlineModulesSdks

/-- A line of a text file, as the Python code sees it after stripping the
trailing newline. -/
abbrev Line := List Char

/-- Represents a Soong configuration variable (class `ConfigVar`). -/
structure ConfigVar where
  «namespace» : String
  name : String
deriving DecidableEq

/-- The line containing the prefer property
(`SoongConfigVarTransformation.PREFER_LINE`). -/
def PREFER_LINE : Line := "    prefer: false,".toList

/-- Characters matched by the `[a-z0-9_]` character class of the module
header regular expression. -/
def isIdentChar (c : Char) : Bool :=
  ('a' ≤ c && c ≤ 'z') || ('0' ≤ c && c ≤ '9') || c = '_'

/-- `re.match("([a-z0-9_]+) +{$", line)`: the line must consist of a
non-empty identifier, one or more spaces and a closing brace; on success the
identifier (the module type) is returned.  The regex classes `[a-z0-9_]`,
`' '` and `'{'` are pairwise disjoint, so the greedy match is the same as
taking the longest identifier run. -/
def matchModuleHeader (l : Line) : Option Line :=
  if l.takeWhile isIdentChar ≠ [] ∧
      (l.dropWhile isIdentChar).takeWhile (fun c => c = ' ') ≠ [] ∧
      (l.dropWhile isIdentChar).dropWhile (fun c => c = ' ') = ['\x7b'] then
    some (l.takeWhile isIdentChar)
  else none

/-- Lines starting with `//`, collected as header lines by
`SoongConfigBoilerplateInserter._apply_transformation`. -/
def isCommentLine (l : Line) : Bool := "//".toList.isPrefixOf l

/-- The physical lines of the multi-line string that
`SoongConfigBoilerplateInserter._apply_transformation` substitutes for the
prefer line inside a module body. -/
def soongConfigVariablesChunk (ns nm : Line) : List Line :=
  [ "    // Do not prefer prebuilt if the Soong config variable \"".toList
      ++ (nm ++ ("\" in namespace \"".toList ++ (ns ++ "\" is true.".toList))),
    "    prefer: true,".toList,
    "    soong_config_variables: \x7b".toList,
    "        ".toList ++ (nm ++ ": \x7b".toList),
    "            prefer: false,".toList,
    "        \x7d,".toList,
    "    \x7d,".toList ]

/-- The physical lines of one `soong_config_module_type` declaration stanza
added to the header lines for a rewritten module type `mt` (the terminating
empty line comes from the trailing newline of the appended string). -/
def declChunk (script pfx ns nm mt : Line) : List Line :=
  [ "// Soong config variable module type added by ".toList
      ++ (script ++ ".".toList),
    "soong_config_module_type \x7b".toList,
    "    name: \"".toList ++ (pfx ++ (mt ++ "\",".toList)),
    "    module_type: \"".toList ++ (mt ++ "\",".toList),
    "    config_namespace: \"".toList ++ (ns ++ "\",".toList),
    "    bool_variables: [\"".toList ++ (nm ++ "\"],".toList),
    "    properties: [\"prefer\"],".toList,
    "\x7d".toList,
    [] ]

/-- The physical lines of the replacement block written by
`UseSourceConfigVarTransformation._apply_transformation`. -/
def useSourceConfigVarChunk (ns nm : Line) : List Line :=
  [ "    // Do not prefer prebuilt if the Soong config variable \"".toList
      ++ (nm ++ ("\" in namespace \"".toList ++ (ns ++ "\" is true.".toList))),
    "    use_source_config_var: \x7b".toList,
    "        config_namespace: \"".toList ++ (ns ++ "\",".toList),
    "        var_name: \"".toList ++ (nm ++ "\",".toList),
    "    \x7d,".toList ]

/-- Adding a module type to the `config_module_types` set: sets are
unordered and duplicate free and are only observed through `sorted(...)`, so
they are modelled as duplicate-free lists. -/
def addType (types : List Line) (mt : Line) : List Line :=
  if mt ∈ types then types else types ++ [mt]

/-- Lexicographic comparison of lines by code point, as Python's string
comparison used by `sorted` orders strings. -/
def lineLe : Line → Line → Bool
  | [], _ => true
  | _ :: _, [] => false
  | a :: as, b :: bs => if a = b then lineLe as bs else decide (a < b)

/-- Insertion of a line into a sorted list of lines. -/
def insertLine (l : Line) : List Line → List Line
  | [] => [l]
  | x :: xs => if lineLe l x then l :: x :: xs else x :: insertLine l xs

/-- Insertion sort by `lineLe`; on a duplicate-free collection this produces
the same list as Python's `sorted`, since a strict total order has exactly
one sorted arrangement. -/
def sortLines : List Line → List Line
  | [] => []
  | x :: xs => insertLine x (sortLines xs)

/-- State of the content scan of
`SoongConfigBoilerplateInserter._apply_transformation`: either at the top
level between modules, or inside a module whose (possibly already prefixed)
type is `moduleType`, with the body lines produced so far held in reverse
order. -/
inductive ScanState where
  | top : ScanState
  | inBlock (moduleType : Line) (bodyRev : List Line) : ScanState

/-- The nested content loops of
`SoongConfigBoilerplateInserter._apply_transformation`: scans the lines
after the header, copying non-module lines verbatim, and rewriting every
module whose body contains the prefer line.  Returns the content lines and
the collected module types.  Reaching the end of input inside a module still
emits the closing brace, exactly as the Python loop structure does. -/
def scanLines (pfx ns nm : Line) : List Line → ScanState → List Line →
    List Line × List Line
  | [], .top, types => ([], types)
  | [], .inBlock mt bodyRev, types =>
      ((mt ++ " \x7b".toList) :: (bodyRev.reverse ++ ["\x7d".toList]), types)
  | l :: ls, .top, types =>
      match matchModuleHeader l with
      | none =>
          let r := scanLines pfx ns nm ls .top types
          (l :: r.1, r.2)
      | some mt => scanLines pfx ns nm ls (.inBlock mt []) types
  | l :: ls, .inBlock mt bodyRev, types =>
      if l = "\x7d".toList then
        let r := scanLines pfx ns nm ls .top types
        ((mt ++ " \x7b".toList) :: (bodyRev.reverse ++ "\x7d".toList :: r.1),
          r.2)
      else if l = PREFER_LINE then
        scanLines pfx ns nm ls
          (.inBlock (pfx ++ mt)
            ((soongConfigVariablesChunk ns nm).reverse ++ bodyRev))
          (addType types mt)
      else
        scanLines pfx ns nm ls (.inBlock mt (l :: bodyRev)) types

/-- Concatenation of the line chunks produced for the elements of a list
(the flattening performed by `"\n".join`). -/
def flatLines (f : Line → List Line) : List Line → List Line
  | [] => []
  | x :: xs => f x ++ flatLines f xs

/-- `SoongConfigBoilerplateInserter._apply_transformation` as a function on
the list of file lines: consume the leading `//` comment lines as header
lines (the first non-comment line is consumed by the `break` and dropped),
scan the remaining lines, then output the header lines, the empty line
appended by `header_lines.append("")`, one declaration stanza per rewritten
module type in sorted order, and the content lines. -/
def legacyLines (pfx ns nm script : Line) (file : List Line) : List Line :=
  let headerLines := file.takeWhile isCommentLine
  let rest := (file.dropWhile isCommentLine).tail
  let scanned := scanLines pfx ns nm rest .top []
  headerLines ++ [[]]
    ++ flatLines (fun mt => declChunk script pfx ns nm mt)
        (sortLines scanned.2)
    ++ scanned.1

/-- `UseSourceConfigVarTransformation._apply_transformation` as a function
on the list of file lines: every line equal to the prefer line is replaced
by the replacement block, all other lines are copied verbatim. -/
def inlineLines (ns nm : Line) (file : List Line) : List Line :=
  flatLines (fun l => if l = PREFER_LINE then useSourceConfigVarChunk ns nm
    else [l]) file

/-- Enumeration of the various ways of handling prefer properties
(class `PreferHandling`). -/
inductive PreferHandling where
  | NONE
  | SOONG_CONFIG
  | USE_SOURCE_CONFIG_VAR_PROPERTY
deriving DecidableEq, Inhabited

/-- Represents a build release (class `BuildRelease`); only the fields that
the claims depend on are carried. -/
structure BuildRelease where
  name : String
  ordinal : Nat
  preferHandling : PreferHandling
deriving DecidableEq, Inhabited

/-- The constructor arguments of one `BuildRelease(...)` call; the
`preferHandling` dataclass field defaults to
`USE_SOURCE_CONFIG_VAR_PROPERTY`. -/
structure BuildReleaseSpec where
  name : String
  preferHandling : PreferHandling := .USE_SOURCE_CONFIG_VAR_PROPERTY
deriving DecidableEq

/-- `BuildRelease.__post_init__`: the new release takes the current length
of `ALL_BUILD_RELEASES` as its ordinal and appends itself to the list. -/
def registerBuildRelease (releases : List BuildRelease)
    (spec : BuildReleaseSpec) : List BuildRelease :=
  releases ++ [{ name := spec.name, ordinal := releases.length,
                 preferHandling := spec.preferHandling }]

/-- The global `ALL_BUILD_RELEASES` list after the module-level
`BuildRelease(...)` constructions have run, in source order:
Q, R, S, Tiramisu, UpsideDownCake, next, latest. -/
def ALL_BUILD_RELEASES : List BuildRelease :=
  ([ { name := "Q", preferHandling := .NONE },
     { name := "R", preferHandling := .NONE },
     { name := "S", preferHandling := .SOONG_CONFIG },
     { name := "Tiramisu",
       preferHandling := .USE_SOURCE_CONFIG_VAR_PROPERTY },
     { name := "UpsideDownCake",
       preferHandling := .USE_SOURCE_CONFIG_VAR_PROPERTY },
     { name := "next" },
     { name := "latest" } ] : List BuildReleaseSpec).foldl
    registerBuildRelease []

/-- The build release `Q`. -/
def Q : BuildRelease := ALL_BUILD_RELEASES.getD 0 default

/-- The build release `R`. -/
def R : BuildRelease := ALL_BUILD_RELEASES.getD 1 default

/-- The build release `S`. -/
def S : BuildRelease := ALL_BUILD_RELEASES.getD 2 default

/-- The build release `Tiramisu`. -/
def Tiramisu : BuildRelease := ALL_BUILD_RELEASES.getD 3 default

/-- The build release `UpsideDownCake`. -/
def UpsideDownCake : BuildRelease := ALL_BUILD_RELEASES.getD 4 default

/-- The build release `next` (named `NEXT` in the script). -/
def NEXT : BuildRelease := ALL_BUILD_RELEASES.getD 5 default

/-- The build release `latest` (named `LATEST` in the script). -/
def LATEST : BuildRelease := ALL_BUILD_RELEASES.getD 6 default

/-- `BuildRelease.__le__`: comparison of the ordinals. -/
def BuildRelease.le (a b : BuildRelease) : Bool :=
  decide (a.ordinal ≤ b.ordinal)

/-- `BuildRelease.__eq__`: equality of the ordinals. -/
def BuildRelease.eq (a b : BuildRelease) : Bool := a.ordinal == b.ordinal

/-- `a > b` for build releases: `functools.total_ordering` derives
`__gt__(a, b)` from `__le__` as `not (a <= b)`. -/
def BuildRelease.gt (a b : BuildRelease) : Bool := !(BuildRelease.le a b)

/-- Represents one kind of sdk artifact (class `SdkType`); the field
`configModuleTypePfx` is the Python attribute `configModuleTypePrefix`. -/
structure SdkType where
  name : String
  configModuleTypePfx : String
  providesApis : Bool := false
deriving DecidableEq

/-- The `Sdk` sdk type. -/
def Sdk : SdkType :=
  { name := "sdk", configModuleTypePfx := "", providesApis := true }

/-- The `HostExports` sdk type. -/
def HostExports : SdkType :=
  { name := "host-exports", configModuleTypePfx := "_host_exports" }

/-- The `TestExports` sdk type. -/
def TestExports : SdkType :=
  { name := "test-exports", configModuleTypePfx := "_test_exports" }

/-- Python's `str.endswith`. -/
def pyEndsWith (s suffix : String) : Bool := suffix.toList.isSuffixOf s.toList

/-- `sdk_type_from_name`: classifies an sdk artifact name by its suffix and
raises (modelled by `Except.error`) for any other name. -/
def sdk_type_from_name (name : String) : Except String SdkType :=
  if pyEndsWith name ("-sdk") then .ok Sdk
  else if pyEndsWith name ("-host-exports") then .ok HostExports
  else if pyEndsWith name ("-test-exports") then .ok TestExports
  else .error (name ++ " is not a valid sdk name, expected it to end"
    ++ " with -(sdk|host-exports|test-exports)")

/-- The `FileTransformation` class hierarchy as a sum type.  The
`otherFileTransformation` constructor stands for any further subclass of
`FileTransformation` (the dataclass field `additional_transformations` is
typed `list[FileTransformation]`, so such values can occur there); the
`tag` distinguishes different such transformations. -/
inductive Transformation where
  | soongConfigBoilerplateInserter (path : String) (configVar : ConfigVar)
      (configModuleTypePfx : String)
  | useSourceConfigVarTransformation (path : String) (configVar : ConfigVar)
  | otherFileTransformation (path : String) (tag : Nat)
deriving DecidableEq

/-- Whether a transformation is one of the two prefer-rewriting
`SoongConfigVarTransformation` subclasses. -/
def Transformation.isPreferRewriting : Transformation → Bool
  | .soongConfigBoilerplateInserter _ _ _ => true
  | .useSourceConfigVarTransformation _ _ => true
  | .otherFileTransformation _ _ => false

/-- The `configVar` attribute of a prefer-rewriting transformation. -/
def Transformation.configVarOf : Transformation → Option ConfigVar
  | .soongConfigBoilerplateInserter _ cv _ => some cv
  | .useSourceConfigVarTransformation _ cv => some cv
  | .otherFileTransformation _ _ => none

/-- Information about a `java_sdk_library` (class `SdkLibrary`). -/
structure SdkLibrary where
  name : String
  shared_library : Bool := false
deriving DecidableEq

/-- Data structure needed for generating a snapshot for an R build
(class `ForRBuild`). -/
structure ForRBuild where
  sdk_libraries : List SdkLibrary := []
deriving DecidableEq

/-- Represents a Mainline module (classes `MainlineModule` and
`BundledMainlineModule`; the subclass is encoded by the `is_bundled`
flag). -/
structure MainlineModule where
  apex : String
  sdks : List String
  first_release : BuildRelease
  configVar : ConfigVar :=
    { «namespace» := "ANDROID", name := "module_build_from_source" }
  for_r_build : Option ForRBuild := none
  last_optional_release : Option BuildRelease := none
  short_name : String := ""
  additional_transformations : Option (List Transformation) := none
  is_bundled : Bool := false
deriving DecidableEq

/-- The characters after the last `'.'` of a character list, or `none`
when it contains no dot. -/
def afterLastDot : List Char → Option (List Char)
  | [] => none
  | c :: cs =>
    match afterLastDot cs with
    | some r => some r
    | none => if c = '.' then some cs else none

/-- `apex.rsplit(".", 1)[-1]`: the part of the apex name after its last
dot, or the whole name when it contains no dot. -/
def shortNameOfApex (apex : String) : String :=
  ⟨(afterLastDot apex.data).getD apex.data⟩

/-- The effective `short_name` attribute after `__post_init__`: when the
field was not set (the empty string is falsy), the last component of the
apex name. -/
def MainlineModule.shortName (m : MainlineModule) : String :=
  if m.short_name = "" then shortNameOfApex m.apex else m.short_name

/-- The local `config_var` of `MainlineModule.transformations`: the
module's own private variable whenever `last_optional_release` is set (the
module is optional), otherwise the module's `configVar` attribute. -/
def MainlineModule.effectiveConfigVar (m : MainlineModule) : ConfigVar :=
  if m.last_optional_release.isSome then
    { «namespace» := m.shortName ++ "_module", name := "source_build" }
  else m.configVar

/-- The prefer-handling part of `MainlineModule.transformations`: the
transformation constructed depends on the build release's prefer
handling. -/
def MainlineModule.preferTransformations (m : MainlineModule)
    (b : BuildRelease) (t : SdkType) : List Transformation :=
  match b.preferHandling with
  | .NONE => []
  | .SOONG_CONFIG =>
      [.soongConfigBoilerplateInserter ("Android.bp") m.effectiveConfigVar
        (m.shortName ++ t.configModuleTypePfx ++ "_prebuilt_")]
  | .USE_SOURCE_CONFIG_VAR_PROPERTY =>
      [.useSourceConfigVarTransformation ("Android.bp") m.effectiveConfigVar]

/-- Python truthiness of the `additional_transformations` attribute:
`None` and the empty list are falsy. -/
def truthyList (o : Option (List Transformation)) : Bool :=
  match o with
  | none => false
  | some l => !l.isEmpty

/-- `transformations(self, build_release, sdk_type)`: bundled modules
(override in `BundledMainlineModule`) return no transformations; unbundled
modules construct the prefer-handling transformation and append
`additional_transformations` when that attribute is truthy and the build
release is strictly newer than `R`. -/
def MainlineModule.transformations (m : MainlineModule) (b : BuildRelease)
    (t : SdkType) : List Transformation :=
  if m.is_bundled then []
  else
    let ts := m.preferTransformations b t
    if truthyList m.additional_transformations && BuildRelease.gt b R then
      ts ++ m.additional_transformations.getD []
    else ts

/-- `is_required_for`: true if this module is required for the target build
release. -/
def MainlineModule.is_required_for (m : MainlineModule)
    (target_build_release : BuildRelease) : Bool :=
  BuildRelease.le m.first_release target_build_release

/-- The `MAINLINE_MODULES` list. -/
def MAINLINE_MODULES : List MainlineModule :=
  [ { apex := "com.android.adservices", sdks := ["adservices-module-sdk"],
      first_release := Tiramisu },
    { apex := "com.android.appsearch", sdks := ["appsearch-sdk"],
      first_release := Tiramisu },
    { apex := "com.android.art",
      sdks := ["art-module-sdk", "art-module-test-exports",
               "art-module-host-exports"],
      first_release := S,
      configVar := { «namespace» := "art_module", name := "source_build" } },
    { apex := "com.android.btservices", sdks := ["btservices-module-sdk"],
      first_release := UpsideDownCake, last_optional_release := some LATEST },
    { apex := "com.android.configinfrastructure",
      sdks := ["configinfrastructure-sdk"],
      first_release := UpsideDownCake },
    { apex := "com.android.conscrypt",
      sdks := ["conscrypt-module-sdk", "conscrypt-module-test-exports",
               "conscrypt-module-host-exports"],
      first_release := Q, for_r_build := none },
    { apex := "com.android.devicelock", sdks := ["devicelock-module-sdk"],
      first_release := UpsideDownCake, last_optional_release := some LATEST },
    { apex := "com.android.healthfitness",
      sdks := ["healthfitness-module-sdk"],
      first_release := UpsideDownCake },
    { apex := "com.android.ipsec", sdks := ["ipsec-module-sdk"],
      first_release := R,
      for_r_build := some { sdk_libraries :=
        [{ name := "android.net.ipsec.ike", shared_library := true }] } },
    { apex := "com.android.media", sdks := ["media-module-sdk"],
      first_release := R,
      for_r_build := some { sdk_libraries :=
        [{ name := "framework-media" }] } },
    { apex := "com.android.mediaprovider",
      sdks := ["mediaprovider-module-sdk"],
      first_release := R,
      for_r_build := some { sdk_libraries :=
        [{ name := "framework-mediaprovider" }] },
      last_optional_release := some LATEST },
    { apex := "com.android.ondevicepersonalization",
      sdks := ["ondevicepersonalization-module-sdk"],
      first_release := Tiramisu },
    { apex := "com.android.permission", sdks := ["permission-module-sdk"],
      first_release := R,
      for_r_build := some { sdk_libraries :=
        [{ name := "framework-permission" }] },
      last_optional_release := some LATEST },
    { apex := "com.android.rkpd", sdks := ["rkpd-sdk"],
      first_release := UpsideDownCake, last_optional_release := some LATEST },
    { apex := "com.android.scheduling", sdks := ["scheduling-sdk"],
      first_release := S },
    { apex := "com.android.sdkext", sdks := ["sdkextensions-sdk"],
      first_release := R,
      for_r_build := some { sdk_libraries :=
        [{ name := "framework-sdkextensions" }] } },
    { apex := "com.android.os.statsd", sdks := ["statsd-module-sdk"],
      first_release := R,
      for_r_build := some { sdk_libraries :=
        [{ name := "framework-statsd" }] } },
    { apex := "com.android.tethering", sdks := ["tethering-module-sdk"],
      first_release := R,
      for_r_build := some { sdk_libraries :=
        [{ name := "framework-tethering" }] } },
    { apex := "com.android.uwb", sdks := ["uwb-module-sdk"],
      first_release := Tiramisu, last_optional_release := some LATEST },
    { apex := "com.android.wifi", sdks := ["wifi-module-sdk"],
      first_release := R,
      for_r_build := some { sdk_libraries :=
        [{ name := "framework-wifi" }] },
      last_optional_release := some LATEST } ]

/-- The `BUNDLED_MAINLINE_MODULES` list; bundled modules default
`first_release` to `LATEST`. -/
def BUNDLED_MAINLINE_MODULES : List MainlineModule :=
  [ { apex := "com.android.i18n",
      sdks := ["i18n-module-sdk", "i18n-module-test-exports",
               "i18n-module-host-exports"],
      first_release := LATEST, is_bundled := true },
    { apex := "com.android.runtime",
      sdks := ["runtime-module-host-exports", "runtime-module-sdk"],
      first_release := LATEST, is_bundled := true },
    { apex := "com.android.tzdata",
      sdks := ["tzdata-module-test-exports"],
      first_release := LATEST, is_bundled := true } ]

/-- The `PLATFORM_SDKS_FOR_MAINLINE` list. -/
def PLATFORM_SDKS_FOR_MAINLINE : List MainlineModule :=
  [ { apex := "platform-mainline",
      sdks := ["platform-mainline-sdk", "platform-mainline-test-exports"],
      first_release := LATEST, is_bundled := true } ]

/-- Python's `str.replace(src, dst)` on the character list of a string:
scan left to right and replace every non-overlapping occurrence of `src`.
(The scripts only ever call it with non-empty `src`; dropping
`src.length - 1` characters after the matched head keeps the recursion
well-founded and agrees with dropping `src.length` characters of the whole
remaining list.) -/
def replaceList (src dst : List Char) : List Char → List Char
  | [] => []
  | c :: cs =>
    if src.isPrefixOf (c :: cs) then
      dst ++ replaceList src dst (cs.drop (src.length - 1))
    else
      c :: replaceList src dst cs
termination_by s => s.length
decreasing_by
  · simp only [List.length_cons, List.length_drop]; omega
  · simp only [List.length_cons]; omega

/-- Whether `sub` occurs as a contiguous substring (Python's `in`). -/
def hasSubstring (sub : List Char) : List Char → Bool
  | [] => sub.isPrefixOf []
  | l@(_ :: cs) => sub.isPrefixOf l || hasSubstring sub cs

/-- The literal `"com.android."`. -/
def AOSP_PKG : List Char := "com.android.".toList

/-- The literal `"com.google.android."`. -/
def GOOGLE_PKG : List Char := "com.google.android.".toList

/-- `aosp_to_google_name`: transform an AOSP module name into a Google
module name. -/
def aosp_to_google_name (name : String) : String :=
  ⟨replaceList AOSP_PKG GOOGLE_PKG name.data⟩

/-- `google_to_aosp_name`: transform a Google module name into an AOSP
module name. -/
def google_to_aosp_name (name : String) : String :=
  ⟨replaceList GOOGLE_PKG AOSP_PKG name.data⟩

/-- A non-empty module type all of whose characters lie in the `[a-z0-9_]`
class, as produced by a successful module header match and preserved by
prepending a prefix drawn from the same class. -/
def ModuleTypeOK (mt : Line) : Prop := mt ≠ [] ∧ mt.all isIdentChar = true

/-- Content in the canonical shape produced by the legacy content scan: a
sequence of verbatim lines that do not match the module header pattern and
of module blocks whose header is the module type followed by exactly one
space and a brace, whose body contains neither a bare closing brace line
nor the prefer line, and which are terminated by a bare closing brace. -/
inductive CanonicalContent : List Line → Prop where
  | nil : CanonicalContent []
  | plain (l : Line) (rest : List Line)
      (hl : matchModuleHeader l = none) (h : CanonicalContent rest) :
      CanonicalContent (l :: rest)
  | block (mt : Line) (body rest : List Line)
      (hmt : matchModuleHeader (mt ++ " \x7b".toList) = some mt)
      (hbody : ∀ b ∈ body, b ≠ "\x7d".toList ∧ b ≠ PREFER_LINE)
      (h : CanonicalContent rest) :
      CanonicalContent ((mt ++ " \x7b".toList) :: body
        ++ "\x7d".toList :: rest)

/-- Invariant carried by the scan state: inside a block, the module type is
well formed and the body produced so far contains neither a bare closing
brace line nor the prefer line. -/
def ScanStateOK : ScanState → Prop
  | .top => True
  | .inBlock mt bodyRev =>
      ModuleTypeOK mt ∧ ∀ b ∈ bodyRev, b ≠ "\x7d".toList ∧ b ≠ PREFER_LINE

/-! ## Generic helper lemmas -/

/-- Two lists differing on a take are different. -/
theorem take_ne_imp_ne (a b : Line) (n : Nat) (h : a.take n ≠ b.take n) :
    a ≠ b := fun e => h (by rw [e])

/-- A list starting with a literal run differs from any list that differs
from the run on the first `n` characters. -/
theorem lit_append_ne (p s b : Line) (n : Nat) (hn : n ≤ p.length)
    (h : p.take n ≠ b.take n) : p ++ s ≠ b := by
  apply take_ne_imp_ne _ _ n
  rw [List.take_append_of_le_length hn]
  exact h

/-- Reading the head from a take of length one. -/
theorem head?_of_take_one (l : Line) (c : Char) (h : l.take 1 = [c]) :
    l.head? = some c := by cases l <;> simp_all

/-- A line whose first character is not in the identifier class does not
match the module header pattern. -/
theorem match_none_of_head (l : Line) (c : Char) (hc : l.head? = some c)
    (h : isIdentChar c = false) : matchModuleHeader l = none := by
  cases l with
  | nil => simp at hc
  | cons a as =>
    injection hc with e
    subst e
    simp [matchModuleHeader, List.takeWhile_cons, h]

/-- A successful module header match yields a well-formed module type. -/
theorem moduleTypeOK_of_match (l mt : Line)
    (h : matchModuleHeader l = some mt) : ModuleTypeOK mt := by
  unfold matchModuleHeader at h
  split at h
  · rename_i hcond
    injection h with e
    subst e
    exact ⟨hcond.1, List.all_takeWhile⟩
  · exact absurd h (by simp)

/-- Taking while a predicate holds on a satisfying run continues into the
remainder of the list. -/
theorem takeWhile_append_all {α} (p : α → Bool) (u v : List α)
    (hu : ∀ x ∈ u, p x = true) :
    (u ++ v).takeWhile p = u ++ v.takeWhile p := by
  induction u with
  | nil => simp
  | cons a u ih =>
    have ha := hu a (by simp)
    simp [List.takeWhile_cons, ha, ih (fun x hx => hu x (by simp [hx]))]

/-- Dropping while a predicate holds on a satisfying run continues into the
remainder of the list. -/
theorem dropWhile_append_all {α} (p : α → Bool) (u v : List α)
    (hu : ∀ x ∈ u, p x = true) :
    (u ++ v).dropWhile p = v.dropWhile p := by
  induction u with
  | nil => simp
  | cons a u ih =>
    have ha := hu a (by simp)
    simp [List.dropWhile_cons, ha, ih (fun x hx => hu x (by simp [hx]))]

/-- A well-formed module type followed by one space and a brace matches the
module header pattern and yields the module type back. -/
theorem match_header_of_ok (mt : Line) (h : ModuleTypeOK mt) :
    matchModuleHeader (mt ++ " \x7b".toList) = some mt := by
  obtain ⟨hne, hall⟩ := h
  have hmem := List.all_eq_true.mp hall
  unfold matchModuleHeader
  rw [takeWhile_append_all _ _ _ hmem, dropWhile_append_all _ _ _ hmem]
  have h1 : (" \x7b".toList : Line).takeWhile isIdentChar = [] := by decide
  rw [h1, List.append_nil]
  rw [if_pos ⟨hne, by decide, by decide⟩]

/-- A non-empty all-identifier prefix prepended to a well-formed module
type yields a well-formed module type. -/
theorem moduleTypeOK_append (pfx mt : Line)
    (hpfx : pfx.all isIdentChar = true) (h : ModuleTypeOK mt) :
    ModuleTypeOK (pfx ++ mt) := by
  refine ⟨fun e => h.1 (List.append_eq_nil.mp e).2, ?_⟩
  rw [List.all_append]
  simp [hpfx, h.2]

/-! ## Facts about the substituted line chunks -/

/-- The lines substituted for the prefer line inside a module body are
neither a bare closing brace nor the prefer line itself. -/
theorem soongChunk_body_ok (ns nm : Line) :
    ∀ b ∈ soongConfigVariablesChunk ns nm,
      b ≠ "\x7d".toList ∧ b ≠ PREFER_LINE := by
  intro b hb
  simp only [soongConfigVariablesChunk, List.mem_cons, List.mem_singleton,
    List.not_mem_nil, or_false] at hb
  rcases hb with rfl | rfl | rfl | rfl | rfl | rfl | rfl
  · exact ⟨lit_append_ne _ _ _ 1 (by decide) (by decide),
      lit_append_ne _ _ _ 5 (by decide) (by decide)⟩
  · exact ⟨by decide, by decide⟩
  · exact ⟨by decide, by decide⟩
  · exact ⟨lit_append_ne _ _ _ 5 (by decide) (by decide),
      lit_append_ne _ _ _ 5 (by decide) (by decide)⟩
  · exact ⟨by decide, by decide⟩
  · exact ⟨by decide, by decide⟩
  · exact ⟨by decide, by decide⟩

/-- The lines of the `use_source_config_var` replacement block are never
the prefer line. -/
theorem useSourceChunk_ne_prefer (ns nm : Line) :
    ∀ b ∈ useSourceConfigVarChunk ns nm, b ≠ PREFER_LINE := by
  intro b hb
  simp only [useSourceConfigVarChunk, List.mem_cons, List.mem_singleton,
    List.not_mem_nil, or_false] at hb
  rcases hb with rfl | rfl | rfl | rfl | rfl
  · exact lit_append_ne _ _ _ 5 (by decide) (by decide)
  · decide
  · exact lit_append_ne _ _ _ 5 (by decide) (by decide)
  · exact lit_append_ne _ _ _ 5 (by decide) (by decide)
  · decide

/-- The declaration stanza written as an explicit module block: a comment
line, the header of a `soong_config_module_type` block, five body lines,
the closing brace and a trailing empty line. -/
theorem declChunk_shape (script pfx ns nm mt : Line) :
    declChunk script pfx ns nm mt =
      ("// Soong config variable module type added by ".toList
          ++ (script ++ ".".toList))
        :: ("soong_config_module_type".toList ++ " \x7b".toList)
        :: ([ "    name: \"".toList ++ (pfx ++ (mt ++ "\",".toList)),
              "    module_type: \"".toList ++ (mt ++ "\",".toList),
              "    config_namespace: \"".toList ++ (ns ++ "\",".toList),
              "    bool_variables: [\"".toList ++ (nm ++ "\"],".toList),
              "    properties: [\"prefer\"],".toList ]
            ++ "\x7d".toList :: [[]]) := by
  have h : ("soong_config_module_type \x7b".toList : Line)
      = "soong_config_module_type".toList ++ " \x7b".toList := by decide
  simp [declChunk, h]

/-- A declaration stanza prepended to canonical content is canonical. -/
theorem canonical_declChunk (script pfx ns nm mt : Line) (rest : List Line)
    (h : CanonicalContent rest) :
    CanonicalContent (declChunk script pfx ns nm mt ++ rest) := by
  rw [declChunk_shape]
  simp only [List.cons_append, List.append_assoc, List.nil_append,
    List.singleton_append]
  apply CanonicalContent.plain
  · refine match_none_of_head _ '/' (head?_of_take_one _ _ ?_) (by decide)
    rw [List.take_append_of_le_length (by decide)]
    decide
  · exact CanonicalContent.block ("soong_config_module_type".toList)
      [ "    name: \"".toList ++ (pfx ++ (mt ++ "\",".toList)),
        "    module_type: \"".toList ++ (mt ++ "\",".toList),
        "    config_namespace: \"".toList ++ (ns ++ "\",".toList),
        "    bool_variables: [\"".toList ++ (nm ++ "\"],".toList),
        "    properties: [\"prefer\"],".toList ]
      ([] :: rest)
      (match_header_of_ok _ ⟨by decide, by decide⟩)
      (by
        intro b hb
        simp only [List.mem_cons, List.mem_singleton, List.not_mem_nil,
          or_false] at hb
        rcases hb with rfl | rfl | rfl | rfl | rfl
        · exact ⟨lit_append_ne _ _ _ 5 (by decide) (by decide),
            lit_append_ne _ _ _ 5 (by decide) (by decide)⟩
        · exact ⟨lit_append_ne _ _ _ 5 (by decide) (by decide),
            lit_append_ne _ _ _ 5 (by decide) (by decide)⟩
        · exact ⟨lit_append_ne _ _ _ 5 (by decide) (by decide),
            lit_append_ne _ _ _ 5 (by decide) (by decide)⟩
        · exact ⟨lit_append_ne _ _ _ 5 (by decide) (by decide),
            lit_append_ne _ _ _ 5 (by decide) (by decide)⟩
        · exact ⟨by decide, by decide⟩)
      (CanonicalContent.plain _ _ (by decide) h)

/-- The whole sorted run of declaration stanzas prepended to canonical
content is canonical. -/
theorem canonical_flatDecls (script pfx ns nm : Line) (mts : List Line)
    (rest : List Line) (h : CanonicalContent rest) :
    CanonicalContent
      (flatLines (fun mt => declChunk script pfx ns nm mt) mts ++ rest) := by
  induction mts with
  | nil => simpa [flatLines]
  | cons m ms ih =>
    simp only [flatLines, List.append_assoc]
    exact canonical_declChunk _ _ _ _ _ _ ih

/-! ## Scanning lemmas for the legacy transformer -/

/-- Scanning a block body that contains neither a bare closing brace nor
the prefer line copies the body verbatim, emits the reconstructed header
and terminator, and continues at the top level. -/
theorem scanLines_body_append (pfx ns nm : Line) (body : List Line)
    (ls : List Line) (mt : Line) (acc types : List Line)
    (hbody : ∀ b ∈ body, b ≠ "\x7d".toList ∧ b ≠ PREFER_LINE) :
    scanLines pfx ns nm (body ++ "\x7d".toList :: ls) (.inBlock mt acc)
        types
      = ((mt ++ " \x7b".toList)
          :: ((acc.reverse ++ body)
            ++ "\x7d".toList :: (scanLines pfx ns nm ls .top types).1),
         (scanLines pfx ns nm ls .top types).2) := by
  induction body generalizing acc with
  | nil => simp [scanLines]
  | cons b body ih =>
    obtain ⟨h1, h2⟩ := hbody b (by simp)
    simp only [List.cons_append, scanLines, List.append_eq]
    rw [if_neg h1, if_neg h2]
    rw [ih (b :: acc) (fun x hx => hbody x (List.mem_cons_of_mem b hx))]
    simp

/-- Scanning canonical content from the top level reproduces it unchanged
and collects no module types. -/
theorem scanLines_canonical_fix (pfx ns nm : Line) (L : List Line)
    (hC : CanonicalContent L) :
    ∀ types, scanLines pfx ns nm L .top types = (L, types) := by
  induction hC with
  | nil => intro types; simp [scanLines]
  | plain l rest hl _ ih =>
    intro types
    simp only [scanLines, hl]
    rw [ih types]
  | block mt body rest hmt hbody _ ih =>
    intro types
    simp only [List.cons_append, scanLines, hmt, List.append_eq]
    rw [scanLines_body_append pfx ns nm body rest mt [] types hbody,
      ih types]
    simp

/-- The content part produced by the scan is canonical whenever the prefix
consists of identifier characters and the scan state satisfies its
invariant. -/
theorem scanLines_output_canonical (pfx ns nm : Line)
    (hpfx : pfx.all isIdentChar = true) :
    ∀ (lines : List Line) (st : ScanState) (types : List Line),
      ScanStateOK st →
        CanonicalContent (scanLines pfx ns nm lines st types).1 := by
  intro lines
  induction lines with
  | nil =>
    intro st types hst
    cases st with
    | top => simpa [scanLines] using CanonicalContent.nil
    | inBlock mt bodyRev =>
      obtain ⟨hmt, hbody⟩ := hst
      simp only [scanLines]
      exact CanonicalContent.block mt bodyRev.reverse []
        (match_header_of_ok _ hmt)
        (fun b hb => hbody b (List.mem_reverse.mp hb))
        CanonicalContent.nil
  | cons l ls ih =>
    intro st types hst
    cases st with
    | top =>
      cases hml : matchModuleHeader l with
      | none =>
        simp only [scanLines, hml]
        exact CanonicalContent.plain l _ hml (ih .top types trivial)
      | some mt =>
        simp only [scanLines, hml]
        exact ih (.inBlock mt []) types
          ⟨moduleTypeOK_of_match l mt hml, by simp⟩
    | inBlock mt bodyRev =>
      obtain ⟨hmt, hbody⟩ := hst
      by_cases h1 : l = "\x7d".toList
      · subst h1
        simp only [scanLines, if_pos rfl]
        exact CanonicalContent.block mt bodyRev.reverse _
          (match_header_of_ok _ hmt)
          (fun b hb => hbody b (List.mem_reverse.mp hb))
          (ih .top types trivial)
      · by_cases h2 : l = PREFER_LINE
        · subst h2
          simp only [scanLines, if_neg h1, if_pos rfl]
          refine ih _ (addType types mt)
            ⟨moduleTypeOK_append pfx mt hpfx hmt, ?_⟩
          intro b hb
          rcases List.mem_append.mp hb with hc | ha
          · exact soongChunk_body_ok ns nm b (List.mem_reverse.mp hc)
          · exact hbody b ha
        · simp only [scanLines, if_neg h1, if_neg h2]
          refine ih _ types ⟨hmt, ?_⟩
          intro b hb
          rcases List.mem_cons.mp hb with rfl | ha
          · exact ⟨h1, h2⟩
          · exact hbody b ha

/-- The legacy transformer leaves a file consisting of a comment header, a
single empty line and canonical content unchanged. -/
theorem legacyLines_fixed (pfx ns nm script : Line) (H T : List Line)
    (hH : ∀ l ∈ H, isCommentLine l = true) (hT : CanonicalContent T) :
    legacyLines pfx ns nm script (H ++ [] :: T) = H ++ [] :: T := by
  have hc : isCommentLine ([] : Line) = false := by decide
  unfold legacyLines
  rw [takeWhile_append_all _ _ _ hH, dropWhile_append_all _ _ _ hH]
  simp only [List.takeWhile_cons, List.dropWhile_cons, hc, Bool.false_eq_true,
    if_false, List.tail_cons, List.append_nil]
  rw [scanLines_canonical_fix pfx ns nm T hT []]
  simp [sortLines, flatLines]

/-- Expansion of the legacy transformer output as a comment header followed
by one empty line and the declaration stanzas plus content. -/
theorem legacyLines_expand (pfx ns nm script : Line) (file : List Line) :
    legacyLines pfx ns nm script file
      = (file.takeWhile isCommentLine) ++ [] ::
          (flatLines (fun mt => declChunk script pfx ns nm mt)
            (sortLines (scanLines pfx ns nm
              ((file.dropWhile isCommentLine).tail) .top []).2)
           ++ (scanLines pfx ns nm
              ((file.dropWhile isCommentLine).tail) .top []).1) := by
  unfold legacyLines
  simp [List.append_assoc]

/-- The legacy transformer is idempotent when its config module type prefix
consists of identifier characters. -/
theorem legacyLines_idem (pfx ns nm script : Line)
    (hpfx : pfx.all isIdentChar = true) (file : List Line) :
    legacyLines pfx ns nm script (legacyLines pfx ns nm script file)
      = legacyLines pfx ns nm script file := by
  have hC := scanLines_output_canonical pfx ns nm hpfx
    ((file.dropWhile isCommentLine).tail) .top [] trivial
  have hDC := canonical_flatDecls script pfx ns nm
    (sortLines (scanLines pfx ns nm
      ((file.dropWhile isCommentLine).tail) .top []).2) _ hC
  rw [legacyLines_expand pfx ns nm script file]
  exact legacyLines_fixed pfx ns nm script _ _
    (fun l hl => List.mem_takeWhile_imp hl) hDC

/-! ## Idempotence of the inline transformer -/

/-- The inline transformer leaves a file without prefer lines unchanged. -/
theorem inlineLines_fixed (ns nm : Line) (xs : List Line)
    (h : ∀ l ∈ xs, l ≠ PREFER_LINE) : inlineLines ns nm xs = xs := by
  induction xs with
  | nil => rfl
  | cons x xs ih =>
    have hx := h x (by simp)
    simp only [inlineLines, flatLines] at *
    rw [if_neg hx]
    rw [ih (fun l hl => h l (by simp [hl])), List.singleton_append]

/-- No line of the inline transformer's output is the prefer line. -/
theorem inlineLines_no_prefer (ns nm : Line) (xs : List Line) :
    ∀ l ∈ inlineLines ns nm xs, l ≠ PREFER_LINE := by
  induction xs with
  | nil => intro l hl; simp [inlineLines, flatLines] at hl
  | cons x xs ih =>
    intro l hl
    simp only [inlineLines, flatLines] at hl
    rcases List.mem_append.mp hl with h1 | h2
    · split at h1
      · exact useSourceChunk_ne_prefer ns nm l h1
      · rename_i hx
        rw [List.mem_singleton] at h1
        subst h1
        exact hx
    · exact ih l h2

/-- The inline transformer is idempotent. -/
theorem inlineLines_idem (ns nm : Line) (xs : List Line) :
    inlineLines ns nm (inlineLines ns nm xs) = inlineLines ns nm xs :=
  inlineLines_fixed ns nm _ (inlineLines_no_prefer ns nm xs)

/-! ## Round-trip of the AOSP/Google name mapping -/

/-- Unfolding lemma for `replaceList` on a non-empty list. -/
theorem replaceList_cons (src dst : List Char) (c : Char) (cs : List Char) :
    replaceList src dst (c :: cs)
      = if src.isPrefixOf (c :: cs) then
          dst ++ replaceList src dst (cs.drop (src.length - 1))
        else c :: replaceList src dst cs := by
  simp [replaceList]

/-- A substring of the tail is a substring of the whole list. -/
theorem hasSubstring_tail_false (sub : List Char) (c : Char)
    (cs : List Char) (h : hasSubstring sub (c :: cs) = false) :
    sub.isPrefixOf (c :: cs) = false ∧ hasSubstring sub cs = false := by
  simpa [hasSubstring] using h

/-- Dropping characters cannot create a substring occurrence. -/
theorem hasSubstring_drop_false (sub : List Char) :
    ∀ (n : Nat) (s : List Char), hasSubstring sub s = false →
      hasSubstring sub (s.drop n) = false := by
  intro n
  induction n with
  | zero => intro s h; simpa using h
  | succ n ih =>
    intro s h
    cases s with
    | nil => simpa using h
    | cons c cs =>
      rw [List.drop_succ_cons]
      exact ih cs (hasSubstring_tail_false sub c cs h).2

/-- `"com.google.android."` has no non-trivial border: no proper non-empty
suffix of it is one of its prefixes. -/
theorem google_pkg_no_border :
    ∀ k, k < 19 → 1 ≤ k →
      (GOOGLE_PKG.drop k).isPrefixOf GOOGLE_PKG = false := by decide

/-- If the replaced string starts with a proper suffix of
`"com.google.android."`, then the original string already started with that
suffix: the replacement cannot manufacture a partial occurrence of the
longer pattern. -/
theorem replace_keeps_partial_google :
    ∀ (n : Nat) (s : List Char), s.length ≤ n → ∀ k, 1 ≤ k → k < 19 →
      (GOOGLE_PKG.drop k).isPrefixOf
          (replaceList AOSP_PKG GOOGLE_PKG s) = true →
      (GOOGLE_PKG.drop k).isPrefixOf s = true := by
  have hBlen : GOOGLE_PKG.length = 19 := by decide
  intro n
  induction n with
  | zero =>
    intro s hs k hk1 hk2 hpre
    have hnil : s = [] := List.length_eq_zero.mp (Nat.le_zero.mp hs)
    subst hnil
    simp only [replaceList] at hpre
    have := congrArg List.length
      (List.prefix_nil.mp ((List.isPrefixOf_iff_prefix).mp hpre))
    simp [List.length_drop, hBlen] at this
    omega
  | succ n ih =>
    intro s hs k hk1 hk2 hpre
    cases s with
    | nil =>
      simp only [replaceList] at hpre
      have := congrArg List.length
        (List.prefix_nil.mp ((List.isPrefixOf_iff_prefix).mp hpre))
      simp [List.length_drop, hBlen] at this
      omega
    | cons c cs =>
      by_cases hp : AOSP_PKG.isPrefixOf (c :: cs) = true
      · rw [replaceList_cons, if_pos hp] at hpre
        have hpg := (List.isPrefixOf_iff_prefix).mp hpre
        have hdl : (GOOGLE_PKG.drop k).length = 19 - k := by
          simp [List.length_drop, hBlen]
        have heq : GOOGLE_PKG.drop k = GOOGLE_PKG.take (19 - k) := by
          have h1 := List.prefix_iff_eq_take.mp hpg
          rw [hdl] at h1
          rw [h1, List.take_append_of_le_length (by omega)]
        have hpref : (GOOGLE_PKG.drop k).isPrefixOf GOOGLE_PKG = true := by
          rw [heq]
          exact (List.isPrefixOf_iff_prefix).mpr
            ⟨GOOGLE_PKG.drop (19 - k), List.take_append_drop _ _⟩
        rw [google_pkg_no_border k hk2 hk1] at hpref
        exact absurd hpref (by simp)
      · rw [replaceList_cons, if_neg (by simpa using hp)] at hpre
        cases hdk : GOOGLE_PKG.drop k with
        | nil =>
          have := congrArg List.length hdk
          simp [List.length_drop, hBlen] at this
          omega
        | cons d ds =>
          rw [hdk] at hpre
          obtain ⟨hdc, hds⟩ :=
            List.cons_prefix_cons.mp ((List.isPrefixOf_iff_prefix).mp hpre)
          have hds' : ds = GOOGLE_PKG.drop (k + 1) := by
            rw [← List.tail_drop GOOGLE_PKG k, hdk]
            rfl
          have hlen : cs.length ≤ n := by
            have h' : cs.length + 1 ≤ n + 1 := by simpa using hs
            omega
          have hgoal : ds <+: cs := by
            by_cases hk19 : k + 1 < 19
            · have := ih cs hlen (k + 1) (by omega) hk19
                (by rw [← hds']
                    exact (List.isPrefixOf_iff_prefix).mpr hds)
              rw [← hds'] at this
              exact (List.isPrefixOf_iff_prefix).mp this
            · have hdsnil : ds = [] := by
                have hlds := congrArg List.length hds'
                simp only [List.length_drop, hBlen] at hlds
                exact List.length_eq_zero.mp (by omega)
              rw [hdsnil]
              exact List.nil_prefix
          exact (List.isPrefixOf_iff_prefix).mpr
            (List.cons_prefix_cons.mpr ⟨hdc, hgoal⟩)

/-- Round trip of the two replacements on character lists: when the string
does not contain `"com.google.android."`, replacing `"com.android."` by
`"com.google.android."` and then replacing back restores the original. -/
theorem replace_roundtrip_aux :
    ∀ (n : Nat) (s : List Char), s.length ≤ n →
      hasSubstring GOOGLE_PKG s = false →
      replaceList GOOGLE_PKG AOSP_PKG (replaceList AOSP_PKG GOOGLE_PKG s)
        = s := by
  intro n
  induction n with
  | zero =>
    intro s hs _
    have hnil : s = [] := List.length_eq_zero.mp (Nat.le_zero.mp hs)
    subst hnil
    simp [replaceList]
  | succ n ih =>
    intro s hs hsub
    cases s with
    | nil => simp [replaceList]
    | cons c cs =>
      by_cases hp : AOSP_PKG.isPrefixOf (c :: cs) = true
      · rw [replaceList_cons, if_pos hp]
        have hBtail : GOOGLE_PKG
            = 'c' :: "om.google.android.".toList := by decide
        have hcons : GOOGLE_PKG
              ++ replaceList AOSP_PKG GOOGLE_PKG
                (cs.drop (AOSP_PKG.length - 1))
            = 'c' :: ("om.google.android.".toList
              ++ replaceList AOSP_PKG GOOGLE_PKG
                (cs.drop (AOSP_PKG.length - 1))) := by
          rw [hBtail]
          rfl
        rw [hcons, replaceList_cons]
        have hpB : GOOGLE_PKG.isPrefixOf
            ('c' :: ("om.google.android.".toList
              ++ replaceList AOSP_PKG GOOGLE_PKG
                (cs.drop (AOSP_PKG.length - 1)))) = true := by
          rw [← hcons]
          exact (List.isPrefixOf_iff_prefix).mpr (List.prefix_append _ _)
        rw [if_pos hpB]
        have hdrop : (("om.google.android.".toList : List Char)
              ++ replaceList AOSP_PKG GOOGLE_PKG
                (cs.drop (AOSP_PKG.length - 1))).drop
              (GOOGLE_PKG.length - 1)
            = replaceList AOSP_PKG GOOGLE_PKG
                (cs.drop (AOSP_PKG.length - 1)) := by
          rw [show GOOGLE_PKG.length - 1
              = ("om.google.android.".toList : List Char).length from by
            decide]
          exact List.drop_left _ _
        rw [hdrop]
        have hsubdrop : hasSubstring GOOGLE_PKG
            (cs.drop (AOSP_PKG.length - 1)) = false :=
          hasSubstring_drop_false _ _ _
            (hasSubstring_tail_false _ _ _ hsub).2
        have hlen : (cs.drop (AOSP_PKG.length - 1)).length ≤ n := by
          have h₁ := List.length_drop (AOSP_PKG.length - 1) cs
          have h₂ : cs.length ≤ n := by
            simp only [List.length_cons] at hs
            omega
          omega
        rw [ih _ hlen hsubdrop]
        obtain ⟨t, ht⟩ := (List.isPrefixOf_iff_prefix).mp hp
        have h1 : (AOSP_PKG ++ t).drop AOSP_PKG.length = t :=
          List.drop_left _ _
        rw [ht] at h1
        have h2 : (c :: cs).drop AOSP_PKG.length
            = cs.drop (AOSP_PKG.length - 1) := by
          rw [show AOSP_PKG.length = (AOSP_PKG.length - 1) + 1 from by
            decide]
          exact List.drop_succ_cons
        rw [h2] at h1
        rw [h1]
        exact ht
      · rw [replaceList_cons, if_neg hp, replaceList_cons]
        cases hq : GOOGLE_PKG.isPrefixOf
            (c :: replaceList AOSP_PKG GOOGLE_PKG cs) with
        | true =>
          exfalso
          have hBtail : GOOGLE_PKG
              = 'c' :: "om.google.android.".toList := by decide
          rw [hBtail] at hq
          obtain ⟨hdc, hds⟩ := List.cons_prefix_cons.mp
            ((List.isPrefixOf_iff_prefix).mp hq)
          have hB1 : ("om.google.android.".toList : List Char)
              = GOOGLE_PKG.drop 1 := by decide
          have hkeep := replace_keeps_partial_google cs.length cs
            (le_refl _) 1 (le_refl 1) (by decide)
            (by rw [← hB1]
                exact (List.isPrefixOf_iff_prefix).mpr hds)
          have hpre : GOOGLE_PKG.isPrefixOf (c :: cs) = true := by
            rw [hBtail]
            refine (List.isPrefixOf_iff_prefix).mpr
              (List.cons_prefix_cons.mpr ⟨hdc, ?_⟩)
            rw [hB1]
            exact (List.isPrefixOf_iff_prefix).mp hkeep
          have hfalse := (hasSubstring_tail_false _ _ _ hsub).1
          rw [hpre] at hfalse
          exact absurd hfalse (by simp)
        | false =>
          rw [if_neg (by simp [hq])]
          have h₂ : cs.length ≤ n := by
            simp only [List.length_cons] at hs
            omega
          rw [ih cs h₂ (hasSubstring_tail_false _ _ _ hsub).2]

/-! ## Helper lemmas about modules and build releases -/

/-- For an unbundled module, `transformations` is the prefer-handling part
followed by the additional transformations exactly when those are truthy
and the build release is strictly newer than `R`. -/
theorem transformations_eq (m : MainlineModule) (b : BuildRelease)
    (t : SdkType) (hm : m.is_bundled = false) :
    m.transformations b t
      = m.preferTransformations b t
        ++ (if truthyList m.additional_transformations
              && BuildRelease.gt b R then
            m.additional_transformations.getD []
          else []) := by
  cases hc : truthyList m.additional_transformations
      && BuildRelease.gt b R with
  | true => simp [MainlineModule.transformations, hm, hc]
  | false => simp [MainlineModule.transformations, hm, hc]

/-- The prefer-handling part for a release with `NONE` handling. -/
theorem preferTransformations_none (m : MainlineModule) (b : BuildRelease)
    (t : SdkType) (h : b.preferHandling = .NONE) :
    m.preferTransformations b t = [] := by
  simp [MainlineModule.preferTransformations, h]

/-- The prefer-handling part for a release with `SOONG_CONFIG` handling. -/
theorem preferTransformations_soong (m : MainlineModule) (b : BuildRelease)
    (t : SdkType) (h : b.preferHandling = .SOONG_CONFIG) :
    m.preferTransformations b t
      = [.soongConfigBoilerplateInserter ("Android.bp") m.effectiveConfigVar
          (m.shortName ++ t.configModuleTypePfx ++ "_prebuilt_")] := by
  simp [MainlineModule.preferTransformations, h]

/-- The prefer-handling part for a release with
`USE_SOURCE_CONFIG_VAR_PROPERTY` handling. -/
theorem preferTransformations_useSource (m : MainlineModule)
    (b : BuildRelease) (t : SdkType)
    (h : b.preferHandling = .USE_SOURCE_CONFIG_VAR_PROPERTY) :
    m.preferTransformations b t
      = [.useSourceConfigVarTransformation ("Android.bp")
          m.effectiveConfigVar] := by
  simp [MainlineModule.preferTransformations, h]

/-- Enumeration of the build release registry. -/
theorem mem_registry_cases (b : BuildRelease)
    (hb : b ∈ ALL_BUILD_RELEASES) :
    b = { name := "Q", ordinal := 0, preferHandling := .NONE } ∨
    b = { name := "R", ordinal := 1, preferHandling := .NONE } ∨
    b = { name := "S", ordinal := 2, preferHandling := .SOONG_CONFIG } ∨
    b = { name := "Tiramisu", ordinal := 3,
          preferHandling := .USE_SOURCE_CONFIG_VAR_PROPERTY } ∨
    b = { name := "UpsideDownCake", ordinal := 4,
          preferHandling := .USE_SOURCE_CONFIG_VAR_PROPERTY } ∨
    b = { name := "next", ordinal := 5,
          preferHandling := .USE_SOURCE_CONFIG_VAR_PROPERTY } ∨
    b = { name := "latest", ordinal := 6,
          preferHandling := .USE_SOURCE_CONFIG_VAR_PROPERTY } := by
  have hALL : ALL_BUILD_RELEASES
      = [ { name := "Q", ordinal := 0, preferHandling := .NONE },
          { name := "R", ordinal := 1, preferHandling := .NONE },
          { name := "S", ordinal := 2, preferHandling := .SOONG_CONFIG },
          { name := "Tiramisu", ordinal := 3,
            preferHandling := .USE_SOURCE_CONFIG_VAR_PROPERTY },
          { name := "UpsideDownCake", ordinal := 4,
            preferHandling := .USE_SOURCE_CONFIG_VAR_PROPERTY },
          { name := "next", ordinal := 5,
            preferHandling := .USE_SOURCE_CONFIG_VAR_PROPERTY },
          { name := "latest", ordinal := 6,
            preferHandling := .USE_SOURCE_CONFIG_VAR_PROPERTY } ] := rfl
  rw [hALL] at hb
  simpa [List.mem_cons] using hb

/-- A registered build release that is not strictly newer than `R` has the
`NONE` prefer handling (only `Q` and `R` qualify). -/
theorem registry_not_gt_R (b : BuildRelease) (hb : b ∈ ALL_BUILD_RELEASES)
    (h : BuildRelease.gt b R = false) : b.preferHandling = .NONE := by
  rcases mem_registry_cases b hb with rfl | rfl | rfl | rfl | rfl | rfl | rfl
  all_goals revert h
  all_goals decide

/-! ## The claims -/

/-- C1: for every module `m` and every build release `b`,
`is_required_for(m, b)` returns true if and only if the ordinal of
`m.first_release` is less than or equal to the ordinal of `b`. -/
theorem claim_is_required_for_ordinal (m : MainlineModule)
    (b : BuildRelease) :
    m.is_required_for b = true ↔ m.first_release.ordinal ≤ b.ordinal := by
  simp [MainlineModule.is_required_for, BuildRelease.le]

/-- C7: for every bundled module `m`, every build release `b` and every
sdk artifact kind `t`, `transformations(m, b, t)` is the empty list. -/
theorem claim_bundled_transformations_empty (m : MainlineModule)
    (b : BuildRelease) (t : SdkType) (h : m.is_bundled = true) :
    m.transformations b t = [] := by
  simp [MainlineModule.transformations, h]

/-- Witness for C7 at the bundled module `com.android.i18n`, the build
release `S` and the `Sdk` kind. -/
theorem claim_bundled_transformations_empty_witness :
    (BUNDLED_MAINLINE_MODULES.getD 0
        { apex := "", sdks := [], first_release := Q }).transformations S Sdk
      = [] :=
  claim_bundled_transformations_empty _ S Sdk (by decide)

/-- C9: after the registry is populated, every build release's ordinal
equals its index in `ALL_BUILD_RELEASES`, so distinct build releases have
distinct ordinals, and the ordinal-based comparisons `==` and `<=`
coincide with equality and order of the creation indices. -/
theorem claim_build_release_registry (i : Nat)
    (hi : i < ALL_BUILD_RELEASES.length) (j : Nat)
    (hj : j < ALL_BUILD_RELEASES.length) :
    (ALL_BUILD_RELEASES.getD i default).ordinal = i ∧
    (BuildRelease.eq (ALL_BUILD_RELEASES.getD i default)
        (ALL_BUILD_RELEASES.getD j default) = true ↔ i = j) ∧
    (BuildRelease.le (ALL_BUILD_RELEASES.getD i default)
        (ALL_BUILD_RELEASES.getD j default) = true ↔ i ≤ j) := by
  revert i j
  decide

/-- Witness for C9 at the indices of `R` and `Tiramisu`. -/
theorem claim_build_release_registry_witness :
    (ALL_BUILD_RELEASES.getD 1 default).ordinal = 1 ∧
    (BuildRelease.eq (ALL_BUILD_RELEASES.getD 1 default)
        (ALL_BUILD_RELEASES.getD 3 default) = true ↔ 1 = 3) ∧
    (BuildRelease.le (ALL_BUILD_RELEASES.getD 1 default)
        (ALL_BUILD_RELEASES.getD 3 default) = true ↔ 1 ≤ 3) :=
  claim_build_release_registry 1 (by decide) 3 (by decide)

/-- C10: for every module name that does not contain the substring
`"com.google.android."`, mapping the name from AOSP to Google form and back
restores the original name. -/
theorem claim_google_aosp_name_roundtrip (n : String)
    (h : hasSubstring GOOGLE_PKG n.data = false) :
    google_to_aosp_name (aosp_to_google_name n) = n := by
  cases n with
  | mk data =>
    exact congrArg String.mk
      (replace_roundtrip_aux data.length data (le_refl _) h)

/-- Witness for C10 at the name `"com.android.art"`. -/
theorem claim_google_aosp_name_roundtrip_witness :
    hasSubstring GOOGLE_PKG ("com.android.art" : String).data = false ∧
    google_to_aosp_name (aosp_to_google_name ("com.android.art"))
      = "com.android.art" :=
  ⟨by decide, claim_google_aosp_name_roundtrip _ (by decide)⟩

/-- Two suffixes of the same string are suffixes of one another; when
neither is a suffix of the other, a string cannot end with both. -/
theorem pyEndsWith_exclusive (s u v : String)
    (h1 : pyEndsWith s u = true)
    (hne1 : u.toList.isSuffixOf v.toList = false)
    (hne2 : v.toList.isSuffixOf u.toList = false) :
    pyEndsWith s v = false := by
  cases hq : pyEndsWith s v with
  | false => rfl
  | true =>
    have hu := (List.isSuffixOf_iff_suffix).mp h1
    have hv := (List.isSuffixOf_iff_suffix).mp hq
    rcases List.suffix_or_suffix_of_suffix hu hv with h | h
    · rw [(List.isSuffixOf_iff_suffix).mpr h] at hne1
      exact absurd hne1 (by simp)
    · rw [(List.isSuffixOf_iff_suffix).mpr h] at hne2
      exact absurd hne2 (by simp)

/-- C8: for every sdk artifact name `s`, `sdk_type_from_name s` returns
the `Sdk`, `HostExports` or `TestExports` kind exactly when `s` ends with
`"-sdk"`, `"-host-exports"` or `"-test-exports"` respectively, and raises
an exception with a descriptive error message for every other string. -/
theorem claim_sdk_type_from_name_spec (s : String) :
    (sdk_type_from_name s = .ok Sdk ↔ pyEndsWith s ("-sdk") = true) ∧
    (sdk_type_from_name s = .ok HostExports
      ↔ pyEndsWith s ("-host-exports") = true) ∧
    (sdk_type_from_name s = .ok TestExports
      ↔ pyEndsWith s ("-test-exports") = true) ∧
    (pyEndsWith s ("-sdk") = false →
      pyEndsWith s ("-host-exports") = false →
      pyEndsWith s ("-test-exports") = false →
      sdk_type_from_name s
        = .error (s ++ " is not a valid sdk name, expected it to end"
            ++ " with -(sdk|host-exports|test-exports)")) := by
  by_cases h1 : pyEndsWith s ("-sdk") = true
  · have h2 := pyEndsWith_exclusive s ("-sdk") ("-host-exports") h1
      (by decide) (by decide)
    have h3 := pyEndsWith_exclusive s ("-sdk") ("-test-exports") h1
      (by decide) (by decide)
    refine ⟨?_, ?_, ?_, ?_⟩
    · simp [sdk_type_from_name, h1]
    · simp [sdk_type_from_name, h1, h2, Sdk, HostExports]
    · simp [sdk_type_from_name, h1, h3, Sdk, TestExports]
    · intro h1' _ _
      rw [h1'] at h1
      exact absurd h1 (by simp)
  · have h1f : pyEndsWith s ("-sdk") = false := by
      cases hx : pyEndsWith s ("-sdk") with
      | false => rfl
      | true => exact absurd hx h1
    by_cases h2 : pyEndsWith s ("-host-exports") = true
    · have h3 := pyEndsWith_exclusive s ("-host-exports")
        ("-test-exports") h2 (by decide) (by decide)
      refine ⟨?_, ?_, ?_, ?_⟩
      · simp [sdk_type_from_name, h1f, h2, Sdk, HostExports]
      · simp [sdk_type_from_name, h1f, h2]
      · simp [sdk_type_from_name, h1f, h2, h3, HostExports, TestExports]
      · intro _ h2' _
        rw [h2'] at h2
        exact absurd h2 (by simp)
    · have h2f : pyEndsWith s ("-host-exports") = false := by
        cases hx : pyEndsWith s ("-host-exports") with
        | false => rfl
        | true => exact absurd hx h2
      by_cases h3 : pyEndsWith s ("-test-exports") = true
      · refine ⟨?_, ?_, ?_, ?_⟩
        · simp [sdk_type_from_name, h1f, h2f, h3, Sdk, TestExports]
        · simp [sdk_type_from_name, h1f, h2f, h3, HostExports, TestExports]
        · simp [sdk_type_from_name, h1f, h2f, h3]
        · intro _ _ h3'
          rw [h3'] at h3
          exact absurd h3 (by simp)
      · have h3f : pyEndsWith s ("-test-exports") = false := by
          cases hx : pyEndsWith s ("-test-exports") with
          | false => rfl
          | true => exact absurd hx h3
        refine ⟨?_, ?_, ?_, ?_⟩
        · simp [sdk_type_from_name, h1f, h2f, h3f]
        · simp [sdk_type_from_name, h1f, h2f, h3f]
        · simp [sdk_type_from_name, h1f, h2f, h3f]
        · intro _ _ _
          simp [sdk_type_from_name, h1f, h2f, h3f]

/-- Witness for C8: the error branch at the invalid name `"foo"`. -/
theorem claim_sdk_type_from_name_spec_witness :
    sdk_type_from_name ("foo")
      = .error ("foo" ++ " is not a valid sdk name, expected it to end"
          ++ " with -(sdk|host-exports|test-exports)") :=
  (claim_sdk_type_from_name_spec ("foo")).2.2.2 (by decide) (by decide)
    (by decide)

/-- C2: for every non-bundled module, registered build release and sdk
artifact kind, the transformation list contains no prefer-rewriting
transformation when the release's handling is `NONE`, contains a
`SoongConfigBoilerplateInserter` for `"Android.bp"` with config module type
prefix `short_name ++ sdk-type suffix ++ "_prebuilt_"` when it is
`SOONG_CONFIG`, and contains a `UseSourceConfigVarTransformation` for
`"Android.bp"` when it is `USE_SOURCE_CONFIG_VAR_PROPERTY`. -/
theorem claim_transformations_by_prefer_handling (m : MainlineModule)
    (b : BuildRelease) (t : SdkType) (hb : b ∈ ALL_BUILD_RELEASES)
    (hm : m.is_bundled = false) :
    (b.preferHandling = .NONE →
      ∀ tr ∈ m.transformations b t, tr.isPreferRewriting = false) ∧
    (b.preferHandling = .SOONG_CONFIG →
      ∃ cv, Transformation.soongConfigBoilerplateInserter ("Android.bp") cv
          (m.shortName ++ t.configModuleTypePfx ++ "_prebuilt_")
        ∈ m.transformations b t) ∧
    (b.preferHandling = .USE_SOURCE_CONFIG_VAR_PROPERTY →
      ∃ cv, Transformation.useSourceConfigVarTransformation ("Android.bp")
          cv
        ∈ m.transformations b t) := by
  refine ⟨?_, ?_, ?_⟩
  · intro hph tr htr
    have hgt : BuildRelease.gt b R = false := by
      rcases mem_registry_cases b hb with rfl | rfl | rfl | rfl | rfl
        | rfl | rfl
      all_goals revert hph
      all_goals decide
    rw [transformations_eq m b t hm, preferTransformations_none m b t hph,
      hgt, Bool.and_false] at htr
    simp at htr
  · intro hph
    refine ⟨m.effectiveConfigVar, ?_⟩
    rw [transformations_eq m b t hm, preferTransformations_soong m b t hph]
    exact List.mem_append_left _ (List.mem_singleton.mpr rfl)
  · intro hph
    refine ⟨m.effectiveConfigVar, ?_⟩
    rw [transformations_eq m b t hm,
      preferTransformations_useSource m b t hph]
    exact List.mem_append_left _ (List.mem_singleton.mpr rfl)

/-- Witness for C2 at the `com.android.art` module, the release `S` and
the `Sdk` kind. -/
theorem claim_transformations_by_prefer_handling_witness :
    ∃ cv, Transformation.soongConfigBoilerplateInserter ("Android.bp") cv
        (({ apex := "com.android.art",
            sdks := ["art-module-sdk"], first_release := S,
            configVar := { «namespace» := "art_module",
                           name := "source_build" } }
            : MainlineModule).shortName
          ++ Sdk.configModuleTypePfx ++ "_prebuilt_")
      ∈ ({ apex := "com.android.art",
           sdks := ["art-module-sdk"], first_release := S,
           configVar := { «namespace» := "art_module",
                          name := "source_build" } }
          : MainlineModule).transformations S Sdk :=
  (claim_transformations_by_prefer_handling _ S Sdk (by decide) rfl).2.1
    (by decide)

/-- C3 as stated is refuted: a non-bundled optional module whose
`additional_transformations` contains a prefer-rewriting transformation
over the shared config variable produces, for a release after its
`last_optional_release`, a prefer-rewriting transformation that is not
parameterized by the module's private variable. -/
theorem claim_private_config_var_counterexample :
    ¬ (∀ tr ∈ MainlineModule.transformations
        { apex := "com.android.foo", sdks := [],
          first_release := Tiramisu,
          last_optional_release := some LATEST,
          additional_transformations := some
            [.useSourceConfigVarTransformation ("Android.bp")
              { «namespace» := "ANDROID",
                name := "module_build_from_source" }] }
        LATEST Sdk,
        tr.isPreferRewriting = true →
          tr.configVarOf = some { «namespace» := "foo_module",
                                  name := "source_build" }) := by
  decide

/-- C3 amended: for every non-bundled module with a non-null
`last_optional_release` whose `additional_transformations` contains no
prefer-rewriting transformation, every prefer-rewriting transformation
produced by `transformations` (for every build release, also strictly
after `last_optional_release`) is parameterized by the private config
variable `short_name ++ "_module"` / `"source_build"`. -/
theorem claim_private_config_var_amended (m : MainlineModule)
    (b : BuildRelease) (t : SdkType) (hm : m.is_bundled = false)
    (ho : m.last_optional_release.isSome = true)
    (hadd : ∀ tr ∈ m.additional_transformations.getD [],
      tr.isPreferRewriting = false) :
    ∀ tr ∈ m.transformations b t, tr.isPreferRewriting = true →
      tr.configVarOf = some { «namespace» := m.shortName ++ "_module",
                              name := "source_build" } := by
  intro tr htr hpr
  rw [transformations_eq m b t hm] at htr
  rcases List.mem_append.mp htr with h1 | h2
  · cases hph : b.preferHandling with
    | NONE =>
      rw [preferTransformations_none m b t hph] at h1
      simp at h1
    | SOONG_CONFIG =>
      rw [preferTransformations_soong m b t hph] at h1
      rw [List.mem_singleton] at h1
      subst h1
      simp [Transformation.configVarOf, MainlineModule.effectiveConfigVar,
        ho]
    | USE_SOURCE_CONFIG_VAR_PROPERTY =>
      rw [preferTransformations_useSource m b t hph] at h1
      rw [List.mem_singleton] at h1
      subst h1
      simp [Transformation.configVarOf, MainlineModule.effectiveConfigVar,
        ho]
  · split at h2
    · rw [hadd tr h2] at hpr
      exact absurd hpr (by simp)
    · simp at h2

/-- Witness for the amended C3 at the wifi module, the release `latest`
and the `Sdk` kind. -/
theorem claim_private_config_var_amended_witness :
    Transformation.configVarOf
        (.useSourceConfigVarTransformation ("Android.bp")
          { «namespace» := "wifi_module", name := "source_build" })
      = some
          { «namespace» :=
              MainlineModule.shortName
                { apex := "com.android.wifi", sdks := ["wifi-module-sdk"],
                  first_release := R,
                  last_optional_release := some LATEST } ++ "_module",
            name := "source_build" } :=
  claim_private_config_var_amended
    { apex := "com.android.wifi", sdks := ["wifi-module-sdk"],
      first_release := R, last_optional_release := some LATEST }
    LATEST Sdk rfl rfl (by simp)
    (.useSourceConfigVarTransformation ("Android.bp")
      { «namespace» := "wifi_module", name := "source_build" })
    (by decide) (by decide)

/-- C4: for every non-bundled module with a non-null
`additional_transformations` list, every registered build release and sdk
artifact kind, the transformation list is the prefer-handling part followed
by the additional transformations in order exactly when the release is
strictly newer than `R`; for releases up to and including `R` the
additional transformations are absent. -/
theorem claim_additional_transformations_append (m : MainlineModule)
    (b : BuildRelease) (t : SdkType) (l : List Transformation)
    (hm : m.is_bundled = false) (hb : b ∈ ALL_BUILD_RELEASES)
    (hl : m.additional_transformations = some l) :
    (BuildRelease.gt b R = true →
      m.transformations b t = m.preferTransformations b t ++ l) ∧
    (BuildRelease.gt b R = false →
      m.transformations b t = m.preferTransformations b t) ∧
    (l ≠ [] →
      (l <:+ m.transformations b t ↔ BuildRelease.gt b R = true)) := by
  refine ⟨?_, ?_, ?_⟩
  · intro hgt
    rw [transformations_eq m b t hm, hl]
    by_cases hle : l = []
    · subst hle
      simp [truthyList]
    · have htr : truthyList (some l) = true := by
        simp [truthyList, List.isEmpty_iff, hle]
      rw [htr, hgt]
      simp
  · intro hgt
    rw [transformations_eq m b t hm, hl, hgt]
    simp
  · intro hne
    constructor
    · intro hsuf
      cases hgt : BuildRelease.gt b R with
      | true => rfl
      | false =>
        exfalso
        have hph := registry_not_gt_R b hb hgt
        rw [transformations_eq m b t hm,
          preferTransformations_none m b t hph, hgt, Bool.and_false] at hsuf
        simp at hsuf
        exact hne hsuf
    · intro hgt
      have htr : truthyList (some l) = true := by
        simp [truthyList, List.isEmpty_iff, hne]
      rw [transformations_eq m b t hm, hl, htr, hgt]
      simp

/-- Witness for C4 at a module carrying one additional transformation, the
release `latest` and the `Sdk` kind. -/
theorem claim_additional_transformations_append_witness :
    ({ apex := "com.android.ipsec", sdks := ["ipsec-module-sdk"],
       first_release := R,
       additional_transformations := some
         [.otherFileTransformation ("Android.bp") 0] }
        : MainlineModule).transformations LATEST Sdk
      = ({ apex := "com.android.ipsec", sdks := ["ipsec-module-sdk"],
           first_release := R,
           additional_transformations := some
             [.otherFileTransformation ("Android.bp") 0] }
          : MainlineModule).preferTransformations LATEST Sdk
        ++ [.otherFileTransformation ("Android.bp") 0] :=
  (claim_additional_transformations_append _ LATEST Sdk _ rfl (by decide)
      rfl).1 (by decide)

/-- C5 as stated is refuted: the legacy transformer is not the identity on
every sentinel-free file, because the first non-comment line is consumed
together with the `break` of the header loop and replaced by the empty
line that is unconditionally appended to the header lines.  The file
consisting of the single line `abc` contains no sentinel and no block was
rewritten, yet the output differs from the input. -/
theorem claim_legacy_zero_sentinel_counterexample :
    (∀ l ∈ [("abc".toList : Line)], l ≠ PREFER_LINE) ∧
    legacyLines ("art_prebuilt_".toList) ("art_module".toList)
        ("source_build".toList) ("mainline_modules_sdks.sh".toList)
        ["abc".toList]
      ≠ ["abc".toList] := by
  decide

/-- C5 amended: the legacy transformer leaves a sentinel-free file
byte-identical — with no declaration section appended — provided the file
is shaped as the transformer's scan expects: leading `//` comment lines,
then a blank line (re-created by the transformer after it consumes the
first non-comment line), then content whose blocks are canonical
(single-space headers, bodies free of bare closing braces, terminated by a
closing brace). -/
theorem claim_legacy_zero_sentinel_amended (pfx ns nm script : Line)
    (H C : List Line) (hH : ∀ l ∈ H, isCommentLine l = true)
    (hC : CanonicalContent C)
    (_hns : ∀ l ∈ H ++ [] :: C, l ≠ PREFER_LINE) :
    legacyLines pfx ns nm script (H ++ [] :: C) = H ++ [] :: C :=
  legacyLines_fixed pfx ns nm script H C hH hC

/-- Witness for the amended C5 at a one-block sentinel-free file. -/
theorem claim_legacy_zero_sentinel_amended_witness :
    legacyLines ("art_prebuilt_".toList) ("art_module".toList)
        ("source_build".toList) ("mainline_modules_sdks.sh".toList)
        (["// Copyright".toList] ++ [] ::
          (("foo".toList ++ " \x7b".toList)
            :: ["    x: true,".toList] ++ "\x7d".toList :: []))
      = ["// Copyright".toList] ++ [] ::
          (("foo".toList ++ " \x7b".toList)
            :: ["    x: true,".toList] ++ "\x7d".toList :: []) :=
  claim_legacy_zero_sentinel_amended _ _ _ _ _ _ (by decide)
    (CanonicalContent.block ("foo".toList) ["    x: true,".toList] []
      (by decide) (by decide) CanonicalContent.nil)
    (by decide)

/-- C6: applying either transform variant twice in succession yields the
same file content as applying it once, for every input file — the sentinel
lines are consumed by the first application (for the legacy variant,
provided its config module type prefix consists of identifier characters,
as every prefix built by `MainlineModule.transformations` does). -/
theorem claim_transform_idempotent (pfx ns nm script : Line)
    (file : List Line) (hpfx : pfx.all isIdentChar = true) :
    legacyLines pfx ns nm script (legacyLines pfx ns nm script file)
        = legacyLines pfx ns nm script file ∧
      inlineLines ns nm (inlineLines ns nm file)
        = inlineLines ns nm file :=
  ⟨legacyLines_idem pfx ns nm script hpfx file,
    inlineLines_idem ns nm file⟩

/-- Witness for C6 at a small file containing a sentinel. -/
theorem claim_transform_idempotent_witness :
    ("art_prebuilt_".toList : Line).all isIdentChar = true ∧
    (legacyLines ("art_prebuilt_".toList) ("art_module".toList)
          ("source_build".toList) ("mainline_modules_sdks.sh".toList)
          (legacyLines ("art_prebuilt_".toList) ("art_module".toList)
            ("source_build".toList) ("mainline_modules_sdks.sh".toList)
            ["// C".toList, [],
              "java_import \x7b".toList, "    prefer: false,".toList,
              "\x7d".toList])
        = legacyLines ("art_prebuilt_".toList) ("art_module".toList)
            ("source_build".toList) ("mainline_modules_sdks.sh".toList)
            ["// C".toList, [],
              "java_import \x7b".toList, "    prefer: false,".toList,
              "\x7d".toList] ∧
      inlineLines ("art_module".toList) ("source_build".toList)
          (inlineLines ("art_module".toList) ("source_build".toList)
            ["// C".toList, [],
              "java_import \x7b".toList, "    prefer: false,".toList,
              "\x7d".toList])
        = inlineLines ("art_module".toList) ("source_build".toList)
            ["// C".toList, [],
              "java_import \x7b".toList, "    prefer: false,".toList,
              "\x7d".toList]) :=
  ⟨by decide,
    claim_transform_idempotent ("art_prebuilt_".toList)
      ("art_module".toList) ("source_build".toList)
      ("mainline_modules_sdks.sh".toList)
      ["// C".toList, [],
        "java_import \x7b".toList, "    prefer: false,".toList,
        "\x7d".toList]
      (by decide)⟩

end MainlineModulesSdks
